import Mathlib

/-!
# Verification of the GA4-to-BigQuery backfill script

A shallow embedding of `Backfill-GA4-to-BigQuery.py` in Lean 4, together
with theorems settling the specification claims about it.

The script is a linear batch job: it fetches analytics report rows with a
paginated loop, normalizes them into flat records, writes every record to a
CSV audit file, optionally filters records that already exist in BigQuery
(only in `--yesterday` mode), buckets the surviving records by `(year,
month)` partition key, and finally appends each bucket to a monthly
partition table, creating the table with a fixed schema when absent.

Modelling conventions:
* A raw analytics report row (`GARow`) carries its dimension and metric
  values as lists of strings, mirroring `row.dimension_values[i].value` /
  `row.metric_values[i].value`; indexing uses `List.getD` with `""`.
* The BigQuery service state is an association list from
  `(dataset_id, table_id)` pairs to tables; a missing key models the
  `NotFound` exception of `get_table`.
* The `COUNT(*)` dedup query is modelled by filtering the stored rows of
  the partition table on equality of the four queried columns.
* Python dict `setdefault(key, []).append(rec)` on `rows_by_month` becomes
  `setdefault_append`, which appends to the first matching key, or adds the
  key at the end (Python dicts preserve insertion order).
* The number of calls to `exists_in_bigquery` is tracked explicitly in the
  pipeline state (`exist_checks`), respecting Python's short-circuit `and`
  in `args.yesterday and exists_in_bigquery(...)`.
* `insert_rows` errors come from an oracle `err`; the script only prints
  the returned error list and continues, so the oracle drives the log line
  only. The `Table ... created.` print is not modelled; the log keeps one
  status line per partition.
-/

namespace GA4Backfill

/-- A raw report row from the analytics API: `dimension_values` and
`metric_values`, each a list of string values. -/
structure GARow where
  dimension_values : List String
  metric_values : List String
deriving Repr, DecidableEq

/-- A normalized event record, the dict built at lines 200-207 / 231-238 of
the script. `Is_Conversion` is `none` for traffic rows (Python `None`) and
`some b` for event rows (a Python bool). -/
structure Rec where
  Event_Name : String
  Event_Date : String
  Event_Count : String
  Is_Conversion : Option Bool
  Channel : String
  Event_Type : String
deriving Repr, DecidableEq

/-- One field of a BigQuery table schema. -/
structure SchemaField where
  name : String
  field_type : String
  mode : String
deriving Repr, DecidableEq

/-- A BigQuery table: its schema and its stored rows. -/
structure BQTable where
  table_schema : List SchemaField
  rows : List Rec
deriving Repr, DecidableEq

/-- The BigQuery service state: tables keyed by `(dataset_id, table_id)`.
A key that is absent models the `NotFound` exception of `get_table`. -/
abbrev BQTables : Type := List ((String × String) × BQTable)

/-- Association-list lookup on the BigQuery state (first match). -/
def lookupT : BQTables → String × String → Option BQTable
  | [], _ => none
  | p :: rest, k => if p.1 = k then some p.2 else lookupT rest k

/-- Lines 21-24 of `exists_in_bigquery`: slice `year = event_date[:4]`,
`month = event_date[4:6]`, and form the table reference
`dataset_id . {TABLE_PREFIX}{year}{month}01` consulted by the dedup
check. `pfx` models the `TABLE_PREFIX` global. -/
def exists_table_ref (pfx event_date dataset_id : String) : String × String :=
  let year := event_date.take 4
  let month := (event_date.drop 4).take 2
  let table_id := pfx ++ year ++ month ++ "01"
  (dataset_id, table_id)

/-- Whether a stored row matches the dedup query's `WHERE` clause: exact
equality on `(Event_Name, Event_Date, Event_Count, Channel)`. -/
def matches_dedup_key (event_name event_date event_count channel_group : String)
    (r : Rec) : Bool :=
  r.Event_Name == event_name && r.Event_Date == event_date &&
    r.Event_Count == event_count && r.Channel == channel_group

/-- `exists_in_bigquery` (lines 20-56): look up the monthly partition table
for the record's date; on `NotFound` return `False`; otherwise run the
`SELECT COUNT(*)` query over the four-column exact match and report
existence iff the count is strictly positive. -/
def exists_in_bigquery (pfx event_name event_date event_count channel_group
    dataset_id : String) (bq : BQTables) : Bool :=
  match lookupT bq (exists_table_ref pfx event_date dataset_id) with
  | none => false
  | some t =>
    let count := (t.rows.filter
      (matches_dedup_key event_name event_date event_count channel_group)).length
    decide (count > 0)

/-- `get_table_ref` (lines 58-60): the destination table reference for a
`(year, month)` partition key, `dataset . {TABLE_PREFIX}{year}{month}01`. -/
def get_table_ref (pfx dataset year month : String) : String × String :=
  let table_id := pfx ++ year ++ month ++ "01"
  (dataset, table_id)

/-! ## Paginated report fetcher (`run_report_with_pagination`, lines 134-153)

The analytics source is modelled as the full result list `src` the service
holds for the request; a call with a given offset returns
`(src.drop offset).take page_limit`, the service's page at that offset.
The function returns the concatenated rows together with the number of
`run_report` calls issued. -/

/-- The fixed page size (`limit = 10000`, line 137). -/
def page_limit : Nat := 10000

/-- The pagination loop body (`while True:` at lines 139-151): fetch the
page at `offset`; if it is full (row count equals the page size) advance
the offset by the page size and continue, otherwise stop. Returns
(all rows fetched, number of `run_report` calls). The `fuel` argument
bounds the number of iterations of the unbounded `while` loop; the top
level supplies enough fuel that it is never exhausted (the hypothesis of
`run_report_go_eq` below, discharged in `run_report_with_pagination_eq`). -/
def run_report_go {α : Type} (src : List α) : Nat → Nat → List α × Nat
  | 0, offset => ((src.drop offset).take page_limit, 1)
  | fuel + 1, offset =>
    let response := (src.drop offset).take page_limit
    if response.length = page_limit then
      let rest := run_report_go src fuel (offset + page_limit)
      (response ++ rest.1, rest.2 + 1)
    else
      (response, 1)

/-- `run_report_with_pagination`: start the loop at offset 0. The fuel
`src.length` always suffices (`Nat.div_le_self` below). -/
def run_report_with_pagination {α : Type} (src : List α) : List α × Nat :=
  run_report_go src src.length 0

theorem run_report_go_eq {α : Type} (src : List α) :
    ∀ (fuel offset : Nat), (src.length - offset) / page_limit ≤ fuel →
      run_report_go src fuel offset =
        (src.drop offset, (src.length - offset) / page_limit + 1) := by
  intro fuel
  induction fuel with
  | zero =>
    intro offset hf
    have h0 : (src.length - offset) / page_limit = 0 := Nat.le_zero.mp hf
    have hlt : src.length - offset < page_limit :=
      (Nat.div_eq_zero_iff (by decide : 0 < page_limit)).mp h0
    have h1 : (src.drop offset).take page_limit = src.drop offset :=
      List.take_of_length_le (by simp only [List.length_drop]; omega)
    rw [run_report_go, h1, h0]
  | succ fuel ih =>
    intro offset hf
    rw [run_report_go]
    dsimp only
    split
    · rename_i h
      simp only [List.length_take, List.length_drop] at h
      have hp : page_limit ≤ src.length - offset := by
        have : 0 < page_limit := by decide
        omega
      have hsub : src.length - offset - page_limit = src.length - (offset + page_limit) := by
        omega
      have hdiv : (src.length - offset) / page_limit
          = (src.length - (offset + page_limit)) / page_limit + 1 := by
        rw [Nat.div_eq_sub_div (by decide : 0 < page_limit) hp, hsub]
      rw [ih (offset + page_limit) (by omega)]
      have h1 : (src.drop offset).take page_limit ++ src.drop (offset + page_limit)
          = src.drop offset := by
        rw [← List.drop_drop]
        exact List.take_append_drop page_limit (src.drop offset)
      rw [h1, hdiv]
    · rename_i h
      simp only [List.length_take, List.length_drop] at h
      have hlt : src.length - offset < page_limit := by
        have : 0 < page_limit := by decide
        omega
      have h1 : (src.drop offset).take page_limit = src.drop offset :=
        List.take_of_length_le (by simp only [List.length_drop]; omega)
      rw [h1, Nat.div_eq_of_lt hlt]

theorem run_report_with_pagination_eq {α : Type} (src : List α) :
    run_report_with_pagination src = (src, src.length / page_limit + 1) := by
  have h := run_report_go_eq src src.length 0
    (by simpa using Nat.div_le_self src.length page_limit)
  simpa using h

/-! ## Row normalization and the processing loops (lines 179-238) -/

/-- The partition key sliced from the event date (lines 198/229):
`year, month = event_date[:4], event_date[4:6]`. -/
def partition_key (event_date : String) : String × String :=
  (event_date.take 4, (event_date.drop 4).take 2)

/-- Normalization of one active-users row (lines 186-192): fixed event
name, `is_conversion = None`, date and channel from the dimensions,
count from the metric, `event_type = "Traffic"`. -/
def normalize_active_row (row : GARow) : Rec :=
  { Event_Name := "ct_active_users",
    Event_Date := row.dimension_values.getD 0 "",
    Event_Count := row.metric_values.getD 0 "",
    Is_Conversion := none,
    Channel := row.dimension_values.getD 1 "",
    Event_Type := "Traffic" }

/-- Lines 216-222: the raw `isConversionEvent` dimension value is mapped
to `""` when it equals the sentinel `"(not set)"`, then coerced with
Python `bool(...)` truthiness — a string is truthy iff non-empty. -/
def coerce_conversion_flag (raw : String) : Bool :=
  (if raw = "(not set)" then "" else raw) != ""

/-- Normalization of one event row (lines 212-223): fields from the four
dimensions and the metric, the conversion flag coerced by
`coerce_conversion_flag`, and `event_type = "Conversion"` when the
coerced flag is true, else `"Event"`. -/
def normalize_event_row (row : GARow) : Rec :=
  { Event_Name := row.dimension_values.getD 0 "",
    Event_Date := row.dimension_values.getD 1 "",
    Event_Count := row.metric_values.getD 0 "",
    Is_Conversion := some (coerce_conversion_flag (row.dimension_values.getD 2 "")),
    Channel := row.dimension_values.getD 3 "",
    Event_Type :=
      if coerce_conversion_flag (row.dimension_values.getD 2 "") then "Conversion"
      else "Event" }

theorem coerce_flag_truthy (raw : String) (h1 : raw ≠ "(not set)") (h2 : raw ≠ "") :
    coerce_conversion_flag raw = true := by
  simp [coerce_conversion_flag, h1, h2]

/-- How Python's `csv` module renders the `is_conversion` cell:
`None` becomes the empty field, bools become `"True"`/`"False"`. -/
def csv_cell_of_conversion : Option Bool → String
  | none => ""
  | some true => "True"
  | some false => "False"

/-- The CSV row written for a record (lines 194/225), in `writerow`
argument order. -/
def csv_row_of (r : Rec) : List String :=
  [r.Event_Name, r.Event_Date, r.Event_Count,
    csv_cell_of_conversion r.Is_Conversion, r.Channel, r.Event_Type]

/-- The CSV header row (line 183). -/
def csv_header : List String :=
  ["Event Name", "Event Date", "Event Count", "Is Conversion", "Channel", "Event_Type"]

/-- The dedup gate (lines 197/228): a record proceeds to the partition
accumulator iff `not (args.yesterday and exists_in_bigquery(...))`. -/
def dedup_pass (yesterday : Bool) (pfx dataset : String) (bq : BQTables) (r : Rec) : Bool :=
  !(yesterday && exists_in_bigquery pfx r.Event_Name r.Event_Date r.Event_Count
      r.Channel dataset bq)

/-- Python `rows_by_month.setdefault(key, []).append(rec)`: append `r` to
the list of the first entry with key `k`, or add `(k, [r])` at the end
(Python dicts keep insertion order and have unique keys). -/
def setdefault_append : List ((String × String) × List Rec) → (String × String) → Rec →
    List ((String × String) × List Rec)
  | [], k, r => [(k, [r])]
  | p :: rest, k, r =>
    if p.1 = k then (p.1, p.2 ++ [r]) :: rest
    else p :: setdefault_append rest k r

/-- The accumulated record list for a partition key (`[]` when the key is
absent from `rows_by_month`). -/
def getAcc : List ((String × String) × List Rec) → (String × String) → List Rec
  | [], _ => []
  | p :: rest, k => if p.1 = k then p.2 else getAcc rest k

/-- The in-memory state threaded through the two processing loops:
the CSV rows written so far, the `rows_by_month` accumulator, and the
number of `exists_in_bigquery` calls made so far (Python's short-circuit
`and` at lines 197/228 calls it exactly when `args.yesterday` is true). -/
structure PipeState where
  csv : List (List String)
  rows_by_month : List ((String × String) × List Rec)
  exist_checks : Nat
deriving Repr, DecidableEq

/-- The shared loop body (lines 194-207 and 225-238) applied to an
already-normalized record: write the CSV row, then run the dedup gate and
route the record to its partition accumulator when it passes. -/
def process_record (yesterday : Bool) (pfx dataset : String) (bq : BQTables)
    (st : PipeState) (r : Rec) : PipeState :=
  let csv' := st.csv ++ [csv_row_of r]
  let checks' := st.exist_checks + (if yesterday then 1 else 0)
  if dedup_pass yesterday pfx dataset bq r then
    { csv := csv', exist_checks := checks',
      rows_by_month := setdefault_append st.rows_by_month (partition_key r.Event_Date) r }
  else
    { csv := csv', exist_checks := checks', rows_by_month := st.rows_by_month }

/-- The sort key of the events loop (line 210): `x.dimension_values[1].value`. -/
def event_sort_key (row : GARow) : String :=
  row.dimension_values.getD 1 ""

/-- The comparison used to model Python's stable `sorted(..., key=...)`. -/
def event_le (a b : GARow) : Bool :=
  decide (event_sort_key a ≤ event_sort_key b)

/-- `sorted_events = sorted(all_events, key=lambda x: x.dimension_values[1].value)`
(line 210), modelled with the stable `List.mergeSort`. -/
def sort_events (all_events : List GARow) : List GARow :=
  all_events.mergeSort event_le

/-- The whole processing section (lines 179-238): start from the header
row and empty accumulators, run the active-users loop, then sort the
events and run the events loop. -/
def process_rows (yesterday : Bool) (pfx dataset : String) (bq : BQTables)
    (active_users all_events : List GARow) : PipeState :=
  let st0 : PipeState := { csv := [csv_header], rows_by_month := [], exist_checks := 0 }
  let st1 := active_users.foldl
    (fun st row => process_record yesterday pfx dataset bq st (normalize_active_row row)) st0
  (sort_events all_events).foldl
    (fun st row => process_record yesterday pfx dataset bq st (normalize_event_row row)) st1

/-- All normalized records in normalization order: the active-users rows
first (in fetch order), then the event rows (in sorted order). -/
def normalized_records (active_users all_events : List GARow) : List Rec :=
  active_users.map normalize_active_row
    ++ (sort_events all_events).map normalize_event_row

/-- Whether a record passes the dedup gate and belongs to partition `k`. -/
def routed (yesterday : Bool) (pfx dataset : String) (bq : BQTables)
    (k : String × String) (r : Rec) : Bool :=
  dedup_pass yesterday pfx dataset bq r && decide (partition_key r.Event_Date = k)

/-! ## Partition writer (lines 243-266) -/

/-- The fixed destination schema (lines 243-250): six fields, all
`NULLABLE`. -/
def bq_schema : List SchemaField :=
  [⟨"Event_Name", "STRING", "NULLABLE"⟩,
   ⟨"Event_Date", "INTEGER", "NULLABLE"⟩,
   ⟨"Event_Count", "INTEGER", "NULLABLE"⟩,
   ⟨"Is_Conversion", "BOOLEAN", "NULLABLE"⟩,
   ⟨"Channel", "STRING", "NULLABLE"⟩,
   ⟨"Event_Type", "STRING", "NULLABLE"⟩]

/-- The per-partition status line printed by the loop body: the error
report when `insert_rows` returned a non-empty error list, the success
message otherwise. -/
def partition_log_line (year month : String) (errors : List String) : String :=
  if errors = [] then "Data saved to BigQuery for " ++ month ++ "/" ++ year ++ "!"
  else "Errors"

/-- One iteration of the write loop (lines 252-266) on one
`((year, month), rows_to_insert)` entry: ensure the destination table
exists (creating it with the fixed schema on `NotFound`), append the
accumulated rows in one `insert_rows` call, and log the status line. The
oracle `err` supplies the error list `insert_rows` returns for a given
table reference; the script only prints it and continues. -/
def write_partition_step (pfx dataset : String) (err : String × String → List String)
    (acc : BQTables × List String) (entry : (String × String) × List Rec) :
    BQTables × List String :=
  let table_ref := get_table_ref pfx dataset entry.1.1 entry.1.2
  let tables1 : BQTables :=
    match lookupT acc.1 table_ref with
    | some _ => acc.1
    | none => acc.1 ++ [(table_ref, { table_schema := bq_schema, rows := [] })]
  let tables2 : BQTables := tables1.map
    (fun p => if p.1 = table_ref then (p.1, { p.2 with rows := p.2.rows ++ entry.2 }) else p)
  (tables2, acc.2 ++ [partition_log_line entry.1.1 entry.1.2 (err table_ref)])

/-- The whole write loop: fold over the `rows_by_month` entries in
insertion order. Returns the final BigQuery state and the status log. -/
def write_partitions (pfx dataset : String) (err : String × String → List String)
    (tables : BQTables) (rows_by_month : List ((String × String) × List Rec)) :
    BQTables × List String :=
  rows_by_month.foldl (write_partition_step pfx dataset err) (tables, [])

/-! ## CLI mode selection (lines 72-93) -/

/-- The parsed command-line flags: both are independent `store_true`
flags of `argparse` (lines 73-74), so any of the four combinations can be
supplied. -/
structure Args where
  yesterday : Bool
  initial_fetch : Bool
deriving Repr, DecidableEq

/-- Python `str.lower` for the ASCII inputs relevant to the confirmation
prompt: uppercase ASCII letters shifted to lowercase, all else kept. -/
def py_to_lower (s : String) : String :=
  String.mk (s.data.map fun c => if c.isUpper then Char.ofNat (c.toNat + 32) else c)

/-- Python `str.strip`: drop whitespace from both ends. -/
def py_strip (s : String) : String :=
  String.mk (((s.data.dropWhile (fun c => c.isWhitespace)).reverse.dropWhile
    (fun c => c.isWhitespace)).reverse)

/-- Line 84-85: `input(...).strip().lower() == 'yes'`. -/
def confirmation_is_yes (confirmation : String) : Bool :=
  py_to_lower (py_strip confirmation) == "yes"

/-- The date-range selection (lines 77-93). `confirmation` is the string
typed at the backfill prompt; the code proceeds iff
`confirmation.strip().lower() == 'yes'`. `none` models `sys.exit()`
before any fetching or writing (lines 90/93). The `if/elif` structure
gives `--yesterday` precedence when both flags are supplied. -/
def determine_date_range (args : Args) (confirmation : String)
    (yesterday_str today_str initial_fetch_from : String) : Option (String × String) :=
  if args.yesterday then
    some (yesterday_str, yesterday_str)
  else if args.initial_fetch then
    if confirmation_is_yes confirmation then some (initial_fetch_from, today_str)
    else none
  else none

/-- The result of a run that got past argument handling: the selected
date range, the processing state (CSV + accumulators), and the final
BigQuery state with the write log. -/
structure RunResult where
  start_date : String
  end_date : String
  state : PipeState
  bq_final : BQTables
  write_log : List String
deriving Repr

/-- The whole script after configuration: select the date range (exiting
with `none` when no flag is given or the confirmation is declined), fetch
both reports for that range from the `source` oracle, process the rows,
and write the partitions. `args.yesterday` is the flag consulted by the
dedup gates (lines 197/228). -/
def main_run (args : Args) (confirmation : String)
    (yesterday_str today_str initial_fetch_from : String)
    (pfx dataset : String) (bq : BQTables) (err : String × String → List String)
    (source : String → String → List GARow × List GARow) : Option RunResult :=
  match determine_date_range args confirmation yesterday_str today_str initial_fetch_from with
  | none => none
  | some (s, e) =>
    let fetched := source s e
    let st := process_rows args.yesterday pfx dataset bq fetched.1 fetched.2
    let written := write_partitions pfx dataset err bq st.rows_by_month
    some { start_date := s, end_date := e, state := st,
           bq_final := written.1, write_log := written.2 }

/-! ## Invariants of the processing loops -/

theorem getAcc_setdefault_append (m : List ((String × String) × List Rec))
    (k k' : String × String) (r : Rec) :
    getAcc (setdefault_append m k r) k' =
      if k' = k then getAcc m k' ++ [r] else getAcc m k' := by
  induction m with
  | nil =>
    by_cases h : k' = k
    · simp [setdefault_append, getAcc, h]
    · simp [setdefault_append, getAcc, h, Ne.symm h]
  | cons p rest ih =>
    by_cases hp : p.1 = k
    · by_cases h : k' = k
      · simp [setdefault_append, getAcc, hp, h]
      · have hpk : p.1 ≠ k' := by
          rw [hp]
          exact Ne.symm h
        simp [setdefault_append, getAcc, hp, h, hpk, Ne.symm h]
    · by_cases hq : p.1 = k'
      · have hkk : k' ≠ k := fun hc => hp (hq.trans hc)
        simp [setdefault_append, getAcc, hp, hq, hkk]
      · simp [setdefault_append, getAcc, hp, hq, ih]

theorem process_record_csv (yesterday : Bool) (pfx dataset : String) (bq : BQTables)
    (st : PipeState) (r : Rec) :
    (process_record yesterday pfx dataset bq st r).csv = st.csv ++ [csv_row_of r] := by
  by_cases h : dedup_pass yesterday pfx dataset bq r <;> simp [process_record, h]

theorem process_record_checks (yesterday : Bool) (pfx dataset : String) (bq : BQTables)
    (st : PipeState) (r : Rec) :
    (process_record yesterday pfx dataset bq st r).exist_checks
      = st.exist_checks + (if yesterday then 1 else 0) := by
  by_cases h : dedup_pass yesterday pfx dataset bq r <;> simp [process_record, h]

theorem process_record_acc (yesterday : Bool) (pfx dataset : String) (bq : BQTables)
    (st : PipeState) (r : Rec) (k : String × String) :
    getAcc (process_record yesterday pfx dataset bq st r).rows_by_month k =
      getAcc st.rows_by_month k
        ++ (if routed yesterday pfx dataset bq k r then [r] else []) := by
  by_cases h : dedup_pass yesterday pfx dataset bq r
  · by_cases hk : k = partition_key r.Event_Date
    · simp [process_record, routed, getAcc_setdefault_append, h, hk]
    · simp [process_record, routed, getAcc_setdefault_append, h, hk, Ne.symm hk]
  · have h' : dedup_pass yesterday pfx dataset bq r = false := by
      simpa using h
    simp [process_record, routed, h']

/-- The CSV effect of one processing loop: each iteration appends exactly
one row, in iteration order. -/
theorem foldl_process_csv (yesterday : Bool) (pfx dataset : String) (bq : BQTables)
    (norm : GARow → Rec) (l : List GARow) (st : PipeState) :
    (l.foldl (fun s row => process_record yesterday pfx dataset bq s (norm row)) st).csv
      = st.csv ++ l.map (fun row => csv_row_of (norm row)) := by
  induction l generalizing st with
  | nil => simp
  | cons row rest ih =>
    simp only [List.foldl_cons, List.map_cons]
    rw [ih, process_record_csv]
    simp

theorem foldl_process_checks (yesterday : Bool) (pfx dataset : String) (bq : BQTables)
    (norm : GARow → Rec) (l : List GARow) (st : PipeState) :
    (l.foldl (fun s row => process_record yesterday pfx dataset bq s (norm row)) st).exist_checks
      = st.exist_checks + l.length * (if yesterday then 1 else 0) := by
  induction l generalizing st with
  | nil => simp
  | cons row rest ih =>
    simp only [List.foldl_cons, List.length_cons]
    rw [ih, process_record_checks]
    ring

theorem foldl_process_acc (yesterday : Bool) (pfx dataset : String) (bq : BQTables)
    (norm : GARow → Rec) (l : List GARow) (st : PipeState) (k : String × String) :
    getAcc (l.foldl (fun s row => process_record yesterday pfx dataset bq s (norm row)) st).rows_by_month k
      = getAcc st.rows_by_month k
        ++ (l.map norm).filter (routed yesterday pfx dataset bq k) := by
  induction l generalizing st with
  | nil => simp
  | cons row rest ih =>
    simp only [List.foldl_cons, List.map_cons, List.filter_cons]
    rw [ih, process_record_acc]
    by_cases h : routed yesterday pfx dataset bq k (norm row)
    · rw [if_pos h, if_pos h]
      simp
    · rw [if_neg h, if_neg (by simpa using h)]
      simp

/-- The CSV output of the whole processing section: the header followed by
one row per normalized record, independent of the dedup outcome. -/
theorem process_rows_csv (yesterday : Bool) (pfx dataset : String) (bq : BQTables)
    (active_users all_events : List GARow) :
    (process_rows yesterday pfx dataset bq active_users all_events).csv
      = csv_header :: (normalized_records active_users all_events).map csv_row_of := by
  unfold process_rows normalized_records
  rw [foldl_process_csv, foldl_process_csv]
  simp [List.map_map, Function.comp_def]

/-- The number of existence checks of the whole processing section. -/
theorem process_rows_checks (yesterday : Bool) (pfx dataset : String) (bq : BQTables)
    (active_users all_events : List GARow) :
    (process_rows yesterday pfx dataset bq active_users all_events).exist_checks
      = (active_users.length + all_events.length) * (if yesterday then 1 else 0) := by
  unfold process_rows
  rw [foldl_process_checks, foldl_process_checks]
  simp only [sort_events, List.length_mergeSort]
  ring

/-- The partition accumulators of the whole processing section: each key
holds exactly the gate-passing records routed to it, in normalization
order. -/
theorem process_rows_acc (yesterday : Bool) (pfx dataset : String) (bq : BQTables)
    (active_users all_events : List GARow) (k : String × String) :
    getAcc (process_rows yesterday pfx dataset bq active_users all_events).rows_by_month k
      = (normalized_records active_users all_events).filter
          (routed yesterday pfx dataset bq k) := by
  unfold process_rows normalized_records
  rw [foldl_process_acc, foldl_process_acc]
  simp [getAcc, List.filter_append]

/-! ## Invariants of the partition writer -/

theorem lookupT_append (l l' : BQTables) (k : String × String) :
    lookupT (l ++ l') k = match lookupT l k with
      | some t => some t
      | none => lookupT l' k := by
  induction l with
  | nil => simp [lookupT]
  | cons p rest ih =>
    by_cases h : p.1 = k <;> simp [lookupT, h, ih]

theorem lookupT_update (l : BQTables) (k : String × String) (f : BQTable → BQTable) :
    lookupT (l.map (fun p => if p.1 = k then (p.1, f p.2) else p)) k
      = (lookupT l k).map f := by
  induction l with
  | nil => simp [lookupT]
  | cons p rest ih =>
    by_cases h : p.1 = k <;> simp [lookupT, h, ih]

theorem lookupT_update_ne (l : BQTables) (k k' : String × String) (f : BQTable → BQTable)
    (h : k' ≠ k) :
    lookupT (l.map (fun p => if p.1 = k then (p.1, f p.2) else p)) k'
      = lookupT l k' := by
  induction l with
  | nil => simp [lookupT]
  | cons p rest ih =>
    by_cases hp : p.1 = k
    · have hp' : p.1 ≠ k' := by
        rw [hp]
        exact h.symm
      simp [lookupT, hp, hp', Ne.symm h, ih]
    · by_cases hq : p.1 = k' <;> simp [lookupT, hp, hq, h, ih]

/-- The destination table after one write-loop iteration: created with the
fixed schema when absent, then the partition's rows appended in bulk. -/
theorem write_partition_step_table (pfx dataset : String)
    (err : String × String → List String) (acc : BQTables × List String)
    (entry : (String × String) × List Rec) :
    lookupT (write_partition_step pfx dataset err acc entry).1
        (get_table_ref pfx dataset entry.1.1 entry.1.2)
      = match lookupT acc.1 (get_table_ref pfx dataset entry.1.1 entry.1.2) with
        | none => some { table_schema := bq_schema, rows := entry.2 }
        | some t => some { table_schema := t.table_schema, rows := t.rows ++ entry.2 } := by
  unfold write_partition_step
  cases h : lookupT acc.1 (get_table_ref pfx dataset entry.1.1 entry.1.2) with
  | none =>
    simp only [h]
    rw [lookupT_update _ _
      (fun t => { table_schema := t.table_schema, rows := t.rows ++ entry.2 })]
    rw [lookupT_append, h, lookupT]
    simp
  | some t =>
    simp only [h]
    rw [lookupT_update _ _
      (fun t => { table_schema := t.table_schema, rows := t.rows ++ entry.2 })]
    rw [h]
    rfl

/-- One status line is logged per iteration of the write loop, whatever
the error oracle answers. -/
theorem write_partitions_log_length (pfx dataset : String)
    (err : String × String → List String) :
    ∀ (m : List ((String × String) × List Rec)) (acc : BQTables × List String),
      (m.foldl (write_partition_step pfx dataset err) acc).2.length
        = acc.2.length + m.length := by
  intro m
  induction m with
  | nil => simp
  | cons entry rest ih =>
    intro acc
    simp only [List.foldl_cons, List.length_cons]
    rw [ih]
    simp only [write_partition_step, List.length_append, List.length_cons,
      List.length_nil]
    omega

/-! ## Claim theorems -/

/-- C1: the existence check queries the destination partition table for
rows matching exactly the `(event_name, event_date, event_count, channel)`
4-tuple and reports the record as existing iff the match count is strictly
greater than 0; when the destination partition table does not exist, the
check returns false (record treated as new) rather than raising. -/
theorem exists_check_spec (pfx n d c ch dataset : String) (bq : BQTables) :
    (lookupT bq (exists_table_ref pfx d dataset) = none →
      exists_in_bigquery pfx n d c ch dataset bq = false)
    ∧ (∀ t : BQTable, lookupT bq (exists_table_ref pfx d dataset) = some t →
        (exists_in_bigquery pfx n d c ch dataset bq = true ↔
          0 < (t.rows.filter (matches_dedup_key n d c ch)).length)) := by
  constructor
  · intro h
    simp [exists_in_bigquery, h]
  · intro t h
    simp [exists_in_bigquery, h]

theorem exists_check_spec_witness :
    exists_in_bigquery "tbl_" "purchase" "20240115" "42" "Direct" "ds" [] = false
    ∧ exists_in_bigquery "tbl_" "purchase" "20240115" "42" "Direct" "ds"
        [(("ds", "tbl_20240101"),
          { table_schema := bq_schema,
            rows := [{ Event_Name := "purchase", Event_Date := "20240115",
                       Event_Count := "42", Is_Conversion := some true,
                       Channel := "Direct", Event_Type := "Conversion" }] })] = true :=
  ⟨(exists_check_spec "tbl_" "purchase" "20240115" "42" "Direct" "ds" []).1 (by decide),
   ((exists_check_spec "tbl_" "purchase" "20240115" "42" "Direct" "ds" _).2
      { table_schema := bq_schema,
        rows := [{ Event_Name := "purchase", Event_Date := "20240115",
                   Event_Count := "42", Is_Conversion := some true,
                   Channel := "Direct", Event_Type := "Conversion" }] }
      (by decide)).mpr (by decide)⟩

/-- C3: the paginated fetcher advances the offset by the fixed page size
10000 after each full page, stops on the first short page (including
zero rows), and returns all pages concatenated in request order; the
call count is `src.length / 10000 + 1`, so a source of 23421 rows (pages
of sizes 10000, 10000, 3421) takes exactly 3 calls and yields exactly
23421 rows. -/
theorem pagination_spec :
    (∀ (src : List GARow), run_report_with_pagination src = (src, src.length / page_limit + 1))
    ∧ (∀ (src : List GARow), src.length = 23421 →
        run_report_with_pagination src = (src, 3) ∧ (run_report_with_pagination src).1.length = 23421) := by
  constructor
  · intro src
    exact run_report_with_pagination_eq src
  · intro src h
    have hd : src.length / page_limit + 1 = 3 := by
      rw [h]
      decide
    rw [run_report_with_pagination_eq src, hd]
    exact ⟨rfl, h⟩

theorem pagination_spec_witness :
    run_report_with_pagination
        (List.replicate 23421 ({ dimension_values := [], metric_values := [] } : GARow))
      = (List.replicate 23421 ({ dimension_values := [], metric_values := [] } : GARow), 3) :=
  (pagination_spec.2 _ (List.length_replicate 23421 _)).1

/-- C5: a raw conversion-flag value `"(not set)"` yields
`is_conversion = false` and `event_type = "Event"`; any other non-empty
flag string (including `"false"`) is coerced by Python truthiness to
`is_conversion = true` and yields `event_type = "Conversion"`. -/
theorem conversion_coercion_spec (row : GARow) :
    (row.dimension_values.getD 2 "" = "(not set)" →
      (normalize_event_row row).Is_Conversion = some false
        ∧ (normalize_event_row row).Event_Type = "Event")
    ∧ (row.dimension_values.getD 2 "" ≠ "(not set)" →
       row.dimension_values.getD 2 "" ≠ "" →
      (normalize_event_row row).Is_Conversion = some true
        ∧ (normalize_event_row row).Event_Type = "Conversion") := by
  constructor
  · intro h
    have hb : coerce_conversion_flag (row.dimension_values.getD 2 "") = false := by
      rw [h]
      decide
    refine ⟨?_, ?_⟩
    · show some (coerce_conversion_flag (row.dimension_values.getD 2 "")) = some false
      rw [hb]
    · show (if coerce_conversion_flag (row.dimension_values.getD 2 "") then "Conversion"
        else "Event") = "Event"
      rw [hb]
      rfl
  · intro h1 h2
    have hb : coerce_conversion_flag (row.dimension_values.getD 2 "") = true :=
      coerce_flag_truthy _ h1 h2
    refine ⟨?_, ?_⟩
    · show some (coerce_conversion_flag (row.dimension_values.getD 2 "")) = some true
      rw [hb]
    · show (if coerce_conversion_flag (row.dimension_values.getD 2 "") then "Conversion"
        else "Event") = "Conversion"
      rw [hb]
      rfl

theorem conversion_coercion_spec_witness :
    ((normalize_event_row ⟨["purchase", "20240115", "(not set)", "Direct"], ["7"]⟩).Is_Conversion
        = some false
      ∧ (normalize_event_row ⟨["purchase", "20240115", "(not set)", "Direct"], ["7"]⟩).Event_Type
        = "Event")
    ∧ ((normalize_event_row ⟨["purchase", "20240115", "false", "Direct"], ["7"]⟩).Is_Conversion
        = some true
      ∧ (normalize_event_row ⟨["purchase", "20240115", "false", "Direct"], ["7"]⟩).Event_Type
        = "Conversion") :=
  ⟨(conversion_coercion_spec _).1 (by decide),
   (conversion_coercion_spec _).2 (by decide) (by decide)⟩

/-- C7: every normalized record is appended as exactly one row to the
CSV audit output regardless of the dedup outcome: the CSV is the header
followed by one row per normalized record, and its contents do not depend
on the BigQuery state or on the mode flag that enables dedup; dedup only
affects the partition accumulators. -/
theorem audit_csv_spec (pfx dataset : String) (active_users all_events : List GARow) :
    (∀ (yesterday : Bool) (bq : BQTables),
      (process_rows yesterday pfx dataset bq active_users all_events).csv
        = csv_header :: (normalized_records active_users all_events).map csv_row_of)
    ∧ (∀ (y y' : Bool) (bq bq' : BQTables),
        (process_rows y pfx dataset bq active_users all_events).csv
          = (process_rows y' pfx dataset bq' active_users all_events).csv) := by
  refine ⟨fun y bq => process_rows_csv y pfx dataset bq active_users all_events,
    fun y y' bq bq' => ?_⟩
  rw [process_rows_csv, process_rows_csv]

/-- C2: the dedup existence check runs only in `--yesterday` mode. With
the yesterday flag false (the backfill / `--initial_fetch` runs), no
existence check is invoked for any record and every normalized record is
routed to its partition accumulator; with the flag true, one check runs
per record. -/
theorem dedup_only_in_yesterday_mode (pfx dataset : String) (bq : BQTables)
    (active_users all_events : List GARow) :
    (process_rows false pfx dataset bq active_users all_events).exist_checks = 0
    ∧ (∀ k : String × String,
        getAcc (process_rows false pfx dataset bq active_users all_events).rows_by_month k
          = (normalized_records active_users all_events).filter
              (fun r => decide (partition_key r.Event_Date = k)))
    ∧ (process_rows true pfx dataset bq active_users all_events).exist_checks
        = active_users.length + all_events.length := by
  refine ⟨?_, ?_, ?_⟩
  · rw [process_rows_checks]
    simp
  · intro k
    rw [process_rows_acc]
    apply List.filter_congr
    intro r _
    simp [routed, dedup_pass]
  · rw [process_rows_checks]
    simp

/-- C4: a record is routed only to the partition key sliced from its own
`event_date` — `(event_date[:4], event_date[4:6])` — and the destination
table for a key is named by the fixed prefix followed by `YYYYMM01`; in
particular `20240115` slices to `("2024", "01")`. -/
theorem partition_routing_spec (pfx dataset : String) :
    (∀ (yesterday : Bool) (bq : BQTables) (active_users all_events : List GARow)
        (k : String × String) (r : Rec),
        r ∈ getAcc (process_rows yesterday pfx dataset bq active_users all_events).rows_by_month k →
        k = (r.Event_Date.take 4, (r.Event_Date.drop 4).take 2))
    ∧ (∀ year month : String,
        get_table_ref pfx dataset year month = (dataset, pfx ++ year ++ month ++ "01"))
    ∧ partition_key "20240115" = ("2024", "01") := by
  refine ⟨?_, fun year month => rfl, by decide⟩
  intro yesterday bq active_users all_events k r hr
  rw [process_rows_acc] at hr
  have hp := List.of_mem_filter hr
  simp only [routed, Bool.and_eq_true, decide_eq_true_eq] at hp
  exact hp.2.symm

theorem partition_routing_spec_witness :
    ("2024", "01")
      = (("20240115" : String).take 4, (("20240115" : String).drop 4).take 2) :=
  (partition_routing_spec "tbl_" "ds").1 false [] [⟨["20240115", "Direct"], ["42"]⟩] []
    ("2024", "01") (normalize_active_row ⟨["20240115", "Direct"], ["42"]⟩)
    (by
      rw [process_rows_acc]
      simp only [normalized_records, sort_events, List.mergeSort_nil, List.map_nil,
        List.map_cons, List.append_nil]
      decide)

/-- C8: event rows are sorted ascending by `event_date` before
normalization with a stable sort — the sorted list is pairwise ordered on
the sort key, and rows sharing any given key value keep their original
relative order — and each partition accumulator holds the gate-passing
records in exactly the order they were normalized (a filter of the
normalization-ordered record list). -/
theorem event_sort_and_order_spec (pfx dataset : String) :
    (∀ all_events : List GARow, (sort_events all_events).Pairwise (fun a b => event_le a b))
    ∧ (∀ (all_events : List GARow) (d : String),
        (sort_events all_events).filter (fun r => event_sort_key r == d)
          = all_events.filter (fun r => event_sort_key r == d))
    ∧ (∀ (yesterday : Bool) (bq : BQTables) (active_users all_events : List GARow)
          (k : String × String),
        getAcc (process_rows yesterday pfx dataset bq active_users all_events).rows_by_month k
          = (normalized_records active_users all_events).filter
              (routed yesterday pfx dataset bq k)) := by
  have htrans : ∀ a b c : GARow, event_le a b → event_le b c → event_le a c := by
    intro a b c hab hbc
    simp only [event_le, decide_eq_true_eq] at hab hbc ⊢
    exact le_trans hab hbc
  have htotal : ∀ a b : GARow, event_le a b || event_le b a := by
    intro a b
    simp only [event_le, Bool.or_eq_true, decide_eq_true_eq]
    exact le_total _ _
  refine ⟨?_, ?_, ?_⟩
  · intro all_events
    exact List.sorted_mergeSort htrans htotal all_events
  · intro all_events d
    have hsub : List.Sublist (all_events.filter (fun r => event_sort_key r == d))
        (sort_events all_events) := by
      apply List.sublist_mergeSort htrans htotal
      · apply List.pairwise_of_forall_mem_list
        intro a ha b hb
        have hka : event_sort_key a = d := by
          simpa using (List.mem_filter.mp ha).2
        have hkb : event_sort_key b = d := by
          simpa using (List.mem_filter.mp hb).2
        simp [event_le, hka, hkb]
      · exact List.filter_sublist all_events
    have hfix : (fun r => (event_sort_key r == d) && (event_sort_key r == d))
        = (fun r => event_sort_key r == d) := by
      funext r
      cases hr : (event_sort_key r == d) <;> simp [hr]
    have hsub2 : List.Sublist (all_events.filter (fun r => event_sort_key r == d))
        ((sort_events all_events).filter (fun r => event_sort_key r == d)) := by
      have h2 := hsub.filter (fun r => event_sort_key r == d)
      rwa [List.filter_filter, hfix] at h2
    have hperm : List.Perm ((sort_events all_events).filter (fun r => event_sort_key r == d))
        (all_events.filter (fun r => event_sort_key r == d)) :=
      (List.mergeSort_perm all_events event_le).filter _
    exact (hsub2.eq_of_length hperm.length_eq.symm).symm
  · intro yesterday bq active_users all_events k
    exact process_rows_acc yesterday pfx dataset bq active_users all_events k

/-- C6: for each partition entry the writer first ensures the destination
table `{prefix}{year}{month}01` exists in the configured dataset —
creating it with the fixed 6-field all-nullable schema when absent — then
appends all accumulated records for that partition in one bulk operation;
a non-empty error result is only reported, and every partition entry is
processed (one status line each) regardless of errors at other
partitions. -/
theorem partition_writer_spec (pfx dataset : String) (err : String × String → List String) :
    (∀ (tables : BQTables) (m : List ((String × String) × List Rec)),
        (write_partitions pfx dataset err tables m).2.length = m.length)
    ∧ (∀ (acc : BQTables × List String) (entry : (String × String) × List Rec),
        (lookupT acc.1 (get_table_ref pfx dataset entry.1.1 entry.1.2) = none →
          lookupT (write_partition_step pfx dataset err acc entry).1
              (get_table_ref pfx dataset entry.1.1 entry.1.2)
            = some { table_schema := bq_schema, rows := entry.2 })
        ∧ (∀ t : BQTable,
            lookupT acc.1 (get_table_ref pfx dataset entry.1.1 entry.1.2) = some t →
            lookupT (write_partition_step pfx dataset err acc entry).1
                (get_table_ref pfx dataset entry.1.1 entry.1.2)
              = some { table_schema := t.table_schema, rows := t.rows ++ entry.2 }))
    ∧ (∀ f ∈ bq_schema, f.mode = "NULLABLE") := by
  refine ⟨?_, ?_, ?_⟩
  · intro tables m
    unfold write_partitions
    rw [write_partitions_log_length]
    simp
  · intro acc entry
    constructor
    · intro h
      rw [write_partition_step_table, h]
    · intro t h
      rw [write_partition_step_table, h]
  · decide

theorem partition_writer_spec_witness :
    lookupT (write_partition_step "tbl_" "ds" (fun _ => []) ([], [])
        (("2024", "01"),
         [{ Event_Name := "a", Event_Date := "20240115", Event_Count := "1",
            Is_Conversion := none, Channel := "Direct", Event_Type := "Traffic" }])).1
      (get_table_ref "tbl_" "ds" "2024" "01")
      = some { table_schema := bq_schema,
               rows := [{ Event_Name := "a", Event_Date := "20240115", Event_Count := "1",
                          Is_Conversion := none, Channel := "Direct",
                          Event_Type := "Traffic" }] }
    ∧ lookupT (write_partition_step "tbl_" "ds" (fun _ => ["boom"])
        ([(("ds", "tbl_20240101"), { table_schema := bq_schema, rows := [] })], [])
        (("2024", "01"),
         [{ Event_Name := "b", Event_Date := "20240116", Event_Count := "2",
            Is_Conversion := some true, Channel := "Organic",
            Event_Type := "Conversion" }])).1
      (get_table_ref "tbl_" "ds" "2024" "01")
      = some { table_schema := bq_schema,
               rows := [{ Event_Name := "b", Event_Date := "20240116", Event_Count := "2",
                          Is_Conversion := some true, Channel := "Organic",
                          Event_Type := "Conversion" }] } :=
  ⟨((partition_writer_spec "tbl_" "ds" (fun _ => [])).2.1 _ _).1 (by decide),
   ((partition_writer_spec "tbl_" "ds" (fun _ => ["boom"])).2.1 _ _).2
     { table_schema := bq_schema, rows := [] } (by decide)⟩

/-- C9 counterexample: the two mode flags are not mutually exclusive on
the code — an invocation supplying both flags is accepted and proceeds to
fetch data (the `if/elif` chain gives `--yesterday` precedence), contrary
to the claim that it does not proceed under either mode. -/
theorem cli_flags_not_exclusive_cex :
    determine_date_range { yesterday := true, initial_fetch := true } "no"
      "2024-03-05" "2024-10-12" "2020-01-01" = some ("2024-03-05", "2024-03-05") := rfl

/-- C9 (amended): the two mode flags are not mutually exclusive — when
both are supplied, the single-prior-day mode takes precedence and the run
proceeds as a single-day run; an invocation with neither flag, or with
the backfill confirmation declined, exits without fetching or writing
anything. -/
theorem cli_mode_selection_spec (confirmation y t i : String) :
    determine_date_range { yesterday := true, initial_fetch := true } confirmation y t i
        = some (y, y)
    ∧ determine_date_range { yesterday := false, initial_fetch := false } confirmation y t i
        = none
    ∧ (confirmation_is_yes confirmation = false →
        determine_date_range { yesterday := false, initial_fetch := true } confirmation y t i
          = none)
    ∧ (∀ (args : Args) (pfx dataset : String) (bq : BQTables)
          (err : String × String → List String)
          (source : String → String → List GARow × List GARow),
        determine_date_range args confirmation y t i = none →
        main_run args confirmation y t i pfx dataset bq err source = none) := by
  refine ⟨rfl, rfl, ?_, ?_⟩
  · intro h
    simp [determine_date_range, h]
  · intro args pfx dataset bq err source h
    unfold main_run
    rw [h]

theorem cli_mode_selection_spec_witness :
    determine_date_range { yesterday := false, initial_fetch := true } "no" "2024-03-05"
        "2024-10-12" "2020-01-01" = none
    ∧ main_run { yesterday := false, initial_fetch := false } "no" "2024-03-05" "2024-10-12"
        "2020-01-01" "tbl_" "ds" [] (fun _ => []) (fun _ _ => ([], [])) = none :=
  ⟨(cli_mode_selection_spec "no" "2024-03-05" "2024-10-12" "2020-01-01").2.2.1 (by decide),
   (cli_mode_selection_spec "no" "2024-03-05" "2024-10-12" "2020-01-01").2.2.2
     { yesterday := false, initial_fetch := false } "tbl_" "ds" [] (fun _ => [])
     (fun _ _ => ([], [])) (by decide)⟩

/-- C10: the table consulted by the dedup existence check is exactly the
table the record would be written to — the reference built inside
`exists_in_bigquery` from the record's `event_date` equals
`get_table_ref` applied to the record's partition key, under the same
dataset; moreover any record sitting in accumulator key `k` has its
dedup table equal to the table written for `k`, and the existence check's
answer depends only on the contents of that one table. -/
theorem dedup_and_write_same_table_spec (pfx dataset : String) :
    (∀ event_date : String,
        exists_table_ref pfx event_date dataset
          = get_table_ref pfx dataset (event_date.take 4) ((event_date.drop 4).take 2))
    ∧ (∀ (yesterday : Bool) (bq : BQTables) (active_users all_events : List GARow)
          (k : String × String) (r : Rec),
        r ∈ getAcc (process_rows yesterday pfx dataset bq active_users all_events).rows_by_month k →
        exists_table_ref pfx r.Event_Date dataset = get_table_ref pfx dataset k.1 k.2)
    ∧ (∀ (n d c ch : String) (bq bq' : BQTables),
        lookupT bq (exists_table_ref pfx d dataset)
          = lookupT bq' (exists_table_ref pfx d dataset) →
        exists_in_bigquery pfx n d c ch dataset bq
          = exists_in_bigquery pfx n d c ch dataset bq') := by
  refine ⟨fun _ => rfl, ?_, ?_⟩
  · intro yesterday bq active_users all_events k r hr
    rw [process_rows_acc] at hr
    have hp := List.of_mem_filter hr
    simp only [routed, Bool.and_eq_true, decide_eq_true_eq] at hp
    rw [← hp.2]
    simp [partition_key, exists_table_ref, get_table_ref]
  · intro n d c ch bq bq' h
    unfold exists_in_bigquery
    rw [h]

theorem dedup_and_write_same_table_spec_witness :
    exists_table_ref "tbl_" "20240115" "ds" = get_table_ref "tbl_" "ds" "2024" "01"
    ∧ exists_in_bigquery "tbl_" "purchase" "20240115" "42" "Direct" "ds" []
        = exists_in_bigquery "tbl_" "purchase" "20240115" "42" "Direct" "ds"
            [(("other_ds", "other_table"), { table_schema := bq_schema, rows := [] })] :=
  ⟨(dedup_and_write_same_table_spec "tbl_" "ds").2.1 false []
      [⟨["20240115", "Direct"], ["42"]⟩] [] ("2024", "01")
      (normalize_active_row ⟨["20240115", "Direct"], ["42"]⟩)
      (by
        rw [process_rows_acc]
        simp only [normalized_records, sort_events, List.mergeSort_nil, List.map_nil,
          List.map_cons, List.append_nil]
        decide),
   (dedup_and_write_same_table_spec "tbl_" "ds").2.2 "purchase" "20240115" "42" "Direct" [] _
      (by decide)⟩

end GA4Backfill
